import Mathlib

/-!
# Verification of the terraform retry driver (`oci.py`)

Shallow embedding of the program in `src/oci.py`: a retry loop around
three subprocess invocations (apply, destroy, plan) plus a text
substitution on a variables file.

Conventions of the embedding:
* File contents are `List Char`; a missing file is `none`.
* `subprocess.run` outcomes are abstracted by `RunResult`: a completed
  process with exit code / stdout / stderr, a `TimeoutExpired`, or any
  other unexpected exception.
* The regular expression `availability_domain\s*=\s*"[^"]*"` used by
  `re.sub`/`re.search` is embedded as a deterministic matcher: this is
  exact because the repetitions `\s*` and `[^"]*` are each followed by a
  character excluded from the repeated class, so the greedy match never
  backtracks.  `\s` is modelled as the ASCII whitespace set
  `[ \t\n\r\f\v]`, and Python's `str.lower` as `Char.toLower` per
  character; the substrings the program compares against are ASCII, so
  these coincide with Python on all inputs that matter.
-/

/-- ASCII whitespace, Python's `\s` class restricted to ASCII:
space, tab, newline, carriage return, vertical tab, form feed. -/
def isSpace (c : Char) : Bool :=
  c = ' ' || c = '\t' || c = '\n' || c = '\r' || c = '\x0b' || c = '\x0c'

/-- Consume the literal `lit` from the front of `cs`; return the rest on
success. -/
def dropLit : List Char → List Char → Option (List Char)
  | [], cs => some cs
  | _ :: _, [] => none
  | a :: as, c :: cs => if a = c then dropLit as cs else none

/-- Consume leading ASCII whitespace: the `\s*` of the pattern. -/
def dropWS : List Char → List Char
  | [] => []
  | c :: cs => if isSpace c then dropWS cs else c :: cs

/-- Consume `[^"]*` followed by the closing `"`; return the rest after the
closing quote, or `none` if no closing quote exists. -/
def scanValue : List Char → Option (List Char)
  | [] => none
  | c :: cs => if c = '"' then some cs else scanValue cs

/-- The literal key of the pattern. -/
def adKey : List Char := "availability_domain".data

/-- Match the regex `availability_domain\s*=\s*"[^"]*"` at the head of
`cs`; on success return the remainder of `cs` after the match. -/
def matchAD (cs : List Char) : Option (List Char) :=
  match dropLit adKey cs with
  | none => none
  | some r1 =>
    match dropWS r1 with
    | [] => none
    | c2 :: r3 =>
      if c2 = '=' then
        match dropWS r3 with
        | [] => none
        | c4 :: r5 =>
          if c4 = '"' then scanValue r5 else none
      else none

theorem dropLit_length : ∀ (l cs r : List Char), dropLit l cs = some r →
    r.length + l.length = cs.length := by
  intro l
  induction l with
  | nil =>
    intro cs r h
    simp [dropLit] at h
    simp [h]
  | cons a as ih =>
    intro cs r h
    cases cs with
    | nil => simp [dropLit] at h
    | cons c cs =>
      simp only [dropLit] at h
      split at h
      · have := ih cs r h
        simp [List.length_cons]
        omega
      · cases h

theorem dropLit_self : ∀ (l cs : List Char), dropLit l (l ++ cs) = some cs := by
  intro l cs
  induction l with
  | nil => simp [dropLit]
  | cons a as ih => simpa [dropLit] using ih

theorem dropWS_length : ∀ (l : List Char), (dropWS l).length ≤ l.length := by
  intro l
  induction l with
  | nil => simp [dropWS]
  | cons c cs ih =>
    simp only [dropWS]
    split
    · exact Nat.le_trans ih (Nat.le_succ _)
    · simp

theorem scanValue_length : ∀ (l r : List Char), scanValue l = some r →
    r.length < l.length := by
  intro l
  induction l with
  | nil => intro r h; simp [scanValue] at h
  | cons c cs ih =>
    intro r h
    simp only [scanValue] at h
    split at h
    · cases h; simp
    · exact Nat.lt_trans (ih r h) (Nat.lt_succ_self _)

theorem matchAD_length (cs r : List Char) (h : matchAD cs = some r) :
    r.length < cs.length := by
  unfold matchAD at h
  split at h
  · cases h
  · next r1 heq1 =>
    have hlen1 : r1.length + adKey.length = cs.length := dropLit_length _ _ _ heq1
    have hkey : adKey.length = 19 := by decide
    split at h
    · cases h
    · next c2 r3 heq2 =>
      have hlen2 : (dropWS r1).length ≤ r1.length := dropWS_length r1
      rw [heq2] at hlen2
      split at h
      · split at h
        · cases h
        · next c4 r5 heq3 =>
          have hlen3 : (dropWS r3).length ≤ r3.length := dropWS_length r3
          rw [heq3] at hlen3
          split at h
          · have hlen4 : r.length < r5.length := scanValue_length _ _ h
            simp [List.length_cons] at hlen2 hlen3
            omega
          · cases h
      · cases h

/-- The replacement text the program substitutes in: the key, an equals
sign with single spaces, and the target zone in double quotes (the
f-string at lines 219 and 242 of the source). -/
def adReplacement (ad : String) : List Char :=
  "availability_domain = \"".data ++ ad.data ++ "\"".data

/-- Embedding of re.sub for the availability-domain pattern: scan left to right; at
each position, if the pattern matches, emit the replacement and continue
after the matched text, else keep the character and move one to the
right. -/
def reSubAux (repl : List Char) : List Char → List Char
  | [] => []
  | c :: cs =>
    match h : matchAD (c :: cs) with
    | some rest => repl ++ reSubAux repl rest
    | none => c :: reSubAux repl cs
termination_by l => l.length
decreasing_by
  · exact matchAD_length _ _ h
  · simp

/-- The substitution the program applies to a file content: re.sub with
the availability-domain pattern and the replacement above (lines 217-221
and 241-245 of the source). -/
def reSubAD (ad : String) (content : List Char) : List Char :=
  reSubAux (adReplacement ad) content

theorem reSubAux_nil (repl : List Char) : reSubAux repl [] = [] := by
  simp [reSubAux]

theorem reSubAux_cons_some (repl : List Char) (c : Char) (cs rest : List Char)
    (h : matchAD (c :: cs) = some rest) :
    reSubAux repl (c :: cs) = repl ++ reSubAux repl rest := by
  simp only [reSubAux]
  split
  · next r heq =>
    rw [h] at heq
    cases heq
    rfl
  · next heq => rw [h] at heq; cases heq

theorem reSubAux_cons_none (repl : List Char) (c : Char) (cs : List Char)
    (h : matchAD (c :: cs) = none) :
    reSubAux repl (c :: cs) = c :: reSubAux repl cs := by
  simp only [reSubAux]
  split
  · next r heq => rw [h] at heq; cases heq
  · rfl

theorem matchAD_nil : matchAD [] = none := by decide

theorem reSubAux_of_match (repl l rest : List Char) (h : matchAD l = some rest) :
    reSubAux repl l = repl ++ reSubAux repl rest := by
  cases l with
  | nil => rw [matchAD_nil] at h; cases h
  | cons c cs => exact reSubAux_cons_some repl c cs rest h

theorem dropWS_cons_space (l : List Char) : dropWS (' ' :: l) = dropWS l := by
  simp [dropWS, isSpace]

theorem dropWS_cons_of_not_space (c : Char) (l : List Char) (h : isSpace c = false) :
    dropWS (c :: l) = c :: l := by
  simp [dropWS, h]

theorem dropWS_eq_cons (l : List Char) : dropWS ('=' :: l) = '=' :: l :=
  dropWS_cons_of_not_space _ _ (by decide)

theorem dropWS_quote_cons (l : List Char) : dropWS ('"' :: l) = '"' :: l :=
  dropWS_cons_of_not_space _ _ (by decide)

theorem scanValue_append : ∀ (v s : List Char), '"' ∉ v →
    scanValue (v ++ '"' :: s) = some s := by
  intro v
  induction v with
  | nil => intro s _; simp [scanValue]
  | cons c cs ih =>
    intro s hv
    simp only [List.mem_cons, not_or] at hv
    simp only [List.cons_append, scanValue]
    rw [if_neg fun hc => hv.1 hc.symm]
    exact ih s hv.2

/-- An assignment line for the availability-domain key carrying value `v`,
in the exact shape the program writes: `availability_domain = "v"`. -/
def adLineOf (v : List Char) : List Char :=
  "availability_domain = \"".data ++ v ++ "\"".data

theorem adReplacement_eq (ad : String) : adReplacement ad = adLineOf ad.data := rfl

theorem matchAD_lineOf (v s : List Char) (hv : '"' ∉ v) :
    matchAD (adLineOf v ++ s) = some s := by
  have hdecomp : adLineOf v ++ s = adKey ++ (' ' :: '=' :: ' ' :: '"' :: (v ++ '"' :: s)) := by
    simp [adLineOf, adKey]
  rw [hdecomp]
  simp only [matchAD, dropLit_self, dropWS_cons_space, dropWS_eq_cons, dropWS_quote_cons]
  simp [scanValue_append v s hv]

theorem reSubAux_append_no_match (repl : List Char) :
    ∀ (p rest : List Char),
      (∀ i, i < p.length → matchAD ((p ++ rest).drop i) = none) →
      reSubAux repl (p ++ rest) = p ++ reSubAux repl rest := by
  intro p
  induction p with
  | nil => intro rest _; simp
  | cons c p ih =>
    intro rest hp
    have h0 : matchAD (c :: (p ++ rest)) = none := by
      simpa using hp 0 (by simp)
    have h' : ∀ i, i < p.length → matchAD ((p ++ rest).drop i) = none := by
      intro i hi
      have := hp (i + 1) (by simp; omega)
      simpa using this
    rw [List.cons_append, reSubAux_cons_none _ _ _ h0, ih rest h']
    simp

theorem reSubAux_id_no_match (repl : List Char) :
    ∀ (s : List Char), (∀ i, i < s.length → matchAD (s.drop i) = none) →
      reSubAux repl s = s := by
  intro s
  induction s with
  | nil => intro _; exact reSubAux_nil repl
  | cons c cs ih =>
    intro hs
    have h0 : matchAD (c :: cs) = none := by simpa using hs 0 (by simp)
    have h' : ∀ i, i < cs.length → matchAD (cs.drop i) = none := by
      intro i hi
      have := hs (i + 1) (by simp; omega)
      simpa using this
    rw [reSubAux_cons_none _ _ _ h0, ih h']

/-- Effect of the substitution on a content made of a non-matching prefix,
one well-formed assignment line, and a non-matching suffix. -/
theorem reSubAD_line (ad : String) (v p s : List Char) (hv : '"' ∉ v)
    (hp : ∀ i, i < p.length → matchAD ((p ++ adLineOf v ++ s).drop i) = none)
    (hs : ∀ i, i < s.length → matchAD (s.drop i) = none) :
    reSubAD ad (p ++ adLineOf v ++ s) = p ++ adLineOf ad.data ++ s := by
  unfold reSubAD
  rw [List.append_assoc]
  have hp' : ∀ i, i < p.length → matchAD ((p ++ (adLineOf v ++ s)).drop i) = none := by
    intro i hi
    rw [← List.append_assoc]
    exact hp i hi
  rw [reSubAux_append_no_match _ p (adLineOf v ++ s) hp']
  rw [reSubAux_of_match _ _ _ (matchAD_lineOf v s hv)]
  rw [reSubAux_id_no_match _ s hs, adReplacement_eq]
  simp

/-- On-disk state the editor touches: contents of `terraform.tfvars` and
`main.tf` inside the configuration directory (`none` = file absent). -/
structure FS where
  tfvars : Option (List Char)
  mainTf : Option (List Char)
deriving DecidableEq

/-- Observable actions of `update_main_tf`: which file it writes, and which
warnings it logs. -/
inductive UEvent where
  | wroteTfvars
  | warnTfvarsNoMatch
  | wroteMainTf
  | warnMainTfNoMatch
  | warnMainTfMissing
deriving DecidableEq

/-- Fallback half of `update_main_tf`: try `main.tf` (older configurations). -/
def updateMainTfFallback (ad : String) (fs : FS) : FS × List UEvent :=
  match fs.mainTf with
  | none => (fs, [UEvent.warnMainTfMissing])
  | some content =>
    let updated := reSubAD ad content
    if updated ≠ content then
      ({ fs with mainTf := some updated }, [UEvent.wroteMainTf])
    else
      (fs, [UEvent.warnMainTfNoMatch])

/-- Embedding of `update_main_tf`: rewrite the
availability-domain assignment in `terraform.tfvars` if that changes the
file; otherwise warn and fall back to `main.tf` with the same pattern. -/
def update_main_tf (ad : String) (fs : FS) : FS × List UEvent :=
  match fs.tfvars with
  | some content =>
    let updated := reSubAD ad content
    if updated ≠ content then
      ({ fs with tfvars := some updated }, [UEvent.wroteTfvars])
    else
      let r := updateMainTfFallback ad fs
      (r.1, UEvent.warnTfvarsNoMatch :: r.2)
  | none => updateMainTfFallback ad fs

/-- Like `scanValue`, but also return the consumed `[^"]*` span: the
capture group of the search pattern. -/
def scanValueCap : List Char → Option (List Char × List Char)
  | [] => none
  | c :: cs =>
    if c = '"' then some ([], cs)
    else
      match scanValueCap cs with
      | none => none
      | some (v, rest) => some (c :: v, rest)

/-- Match the capture-group form of the pattern at the head of `cs` and
return the captured value. -/
def matchADCap (cs : List Char) : Option (List Char) :=
  match dropLit adKey cs with
  | none => none
  | some r1 =>
    match dropWS r1 with
    | [] => none
    | c2 :: r3 =>
      if c2 = '=' then
        match dropWS r3 with
        | [] => none
        | c4 :: r5 =>
          if c4 = '"' then
            match scanValueCap r5 with
            | none => none
            | some (v, _) => some v
          else none
      else none

/-- Embedding of the re.search the program performs for the
availability-domain pattern with the value captured: the capture group of
the leftmost match, if any (lines 202 and 416 of the source). -/
def searchAD : List Char → Option (List Char)
  | [] => none
  | c :: cs =>
    match matchADCap (c :: cs) with
    | some v => some v
    | none => searchAD cs

/-- Python `str.strip()`, restricted to ASCII whitespace. -/
def stripWS (v : List Char) : List Char :=
  (dropWS (dropWS v).reverse).reverse

/-- Embedding of `check_availability_domain_in_tfvars`: `terraform.tfvars`
exists, the pattern matches somewhere in it, and the captured value is
non-empty after stripping. -/
def check_availability_domain_in_tfvars (tfvars : Option (List Char)) : Bool :=
  match tfvars with
  | none => false
  | some content =>
    match searchAD content with
    | none => false
    | some v => !(stripWS v).isEmpty

/-- Does `needle` start `hay`? -/
def startsWithL : List Char → List Char → Bool
  | [], _ => true
  | _ :: _, [] => false
  | a :: as, b :: bs => a = b && startsWithL as bs

/-- Python's `needle in hay` substring test. -/
def containsSub : List Char → List Char → Bool
  | needle, [] => startsWithL needle []
  | needle, c :: rest => startsWithL needle (c :: rest) || containsSub needle rest

/-- The recoverable-error test of the driver, lines 151-155 of `oci.py`:
`error_output = result.stderr.lower()` followed by the two substring
tests. -/
def isRecoverable (serr : List Char) : Bool :=
  let errorOutput := serr.map Char.toLower
  containsSub ("out of host capacity".data) errorOutput
    || containsSub ("internalerror".data) errorOutput

/-- Parameters of `run_terraform_apply` (argument defaults as in the
source). -/
structure Config where
  maxAttempts : Nat := 50
  retryDelay : Nat := 30
  autoApprove : Bool := true
  zones : List String
  timeoutS : Nat := 1800
  noCleanup : Bool := false
  planOnly : Bool := false
deriving DecidableEq

/-- Outcome of one `subprocess.run` invocation: a completed process
(exit code, stdout, stderr), a `subprocess.TimeoutExpired`, or any other
exception. -/
inductive RunResult where
  | completed (returncode : Int) (stdout : List Char) (stderr : List Char)
  | timedOut
  | raised
deriving DecidableEq

/-- Observable actions of the retry loop: which zone an attempt used,
whether `terraform destroy` was invoked, and sleeps between retries. -/
inductive Event where
  | useZone (ad : String)
  | destroyEv
  | sleepEv (delay : Nat)
deriving DecidableEq

/-- A subprocess invocation: command line and the time limit handed to
`subprocess.run`. -/
structure SubprocCall where
  argv : List String
  timeoutS : Nat
deriving DecidableEq

/-- The apply/plan command the driver builds (lines 96-98): `terraform plan`
in plan-only mode, else `terraform apply` with `-auto-approve` when
approved; run with the caller-configured timeout. -/
def applySubprocCall (cfg : Config) : SubprocCall :=
  { argv := ["terraform", if cfg.planOnly then "plan" else "apply"]
      ++ (if cfg.autoApprove && !cfg.planOnly then ["-auto-approve"] else []),
    timeoutS := cfg.timeoutS }

/-- The destroy command `cleanup_resources` builds (lines 267-279):
`terraform destroy`, optionally `-auto-approve`, with the hard-coded
`timeout=1800`. -/
def destroySubprocCall (autoApprove : Bool) : SubprocCall :=
  { argv := ["terraform", "destroy"]
      ++ (if autoApprove then ["-auto-approve"] else []),
    timeoutS := 1800 }

/-- Python exceptions that `subprocess.run` may raise. -/
inductive PyExc where
  | timeoutExpired
  | other
deriving DecidableEq

/-- A `subprocess.run` call abstracted over its outcome: a completed
process returns its exit code and streams, the rest raise. -/
def subprocessRun (outcome : RunResult) : Except PyExc (Int × List Char × List Char) :=
  match outcome with
  | .completed rc out err => .ok (rc, out, err)
  | .timedOut => .error .timeoutExpired
  | .raised => .error .other

/-- Log lines of `cleanup_resources`. -/
inductive CleanupEvent where
  | infoSuccess
  | errFailed (rc : Int)
  | caughtTimeout
  | caughtUnexpected
deriving DecidableEq

/-- Embedding of `cleanup_resources`: run
`terraform destroy` and log the outcome; `TimeoutExpired` and every other
exception of the invocation are caught and logged (lines 271-293), so the
function itself never raises — every branch produces `.ok`. -/
def cleanup_resources (autoApprove : Bool) (outcome : RunResult) :
    Except PyExc (List CleanupEvent) :=
  match subprocessRun outcome with
  | .ok (rc, _out, _err) =>
    if rc = 0 then .ok [CleanupEvent.infoSuccess]
    else .ok [CleanupEvent.errFailed rc]
  | .error .timeoutExpired => .ok [CleanupEvent.caughtTimeout]
  | .error .other => .ok [CleanupEvent.caughtUnexpected]

/-- The zone index computation `(attempt - 1) % len(availability_domains)`
of line 104.
Python `%` raises `ZeroDivisionError` on a zero divisor, hence `none` for
an empty zone list. -/
def zoneIndex (attempt : Nat) (l : Nat) : Option Nat :=
  if l = 0 then none else some ((attempt - 1) % l)

/-- The zone lookup `availability_domains[region_index]` of lines
104-105. -/
def selectZone (zones : List String) (attempt : Nat) : Option String :=
  match zoneIndex attempt zones.length with
  | none => none
  | some i => zones.get? i

/-- The `while attempt <= max_attempts` loop of `run_terraform_apply`
(lines 102-191), driven by `env : Nat → RunResult`, the outcome of the
apply/plan subprocess at each attempt number.  `fuel` stands for the loop
condition: the caller passes `fuel = maxAttempts - attempt + 1`, which is
exact because every continuation of the loop increments `attempt` by one;
`fuel = 0` is the loop exit (lines 187-191).  The result is `none` when
the zone selection raises an uncaught `ZeroDivisionError` (empty zone
list, line 104 — outside the `try`), else the returned boolean, the final
file-system state, and the event trace. -/
def runLoop (cfg : Config) (env : Nat → RunResult) :
    FS → Nat → Nat → Option (Bool × FS × List Event)
  | fs, _attempt, 0 =>
    some (false, fs,
      if !cfg.planOnly && !cfg.noCleanup then [Event.destroyEv] else [])
  | fs, attempt, fuel + 1 =>
    match selectZone cfg.zones attempt with
    | none => none
    | some ad =>
      let fs1 := (update_main_tf ad fs).1
      match env attempt with
      | .completed rc _out serr =>
        if rc = 0 then some (true, fs1, [Event.useZone ad])
        else if cfg.planOnly then some (false, fs1, [Event.useZone ad])
        else
          let cevs := if !cfg.noCleanup then [Event.destroyEv] else []
          if isRecoverable serr then
            if attempt < cfg.maxAttempts then
              (runLoop cfg env fs1 (attempt + 1) fuel).map
                (fun r => (r.1, r.2.1,
                  Event.useZone ad :: (cevs ++ Event.sleepEv cfg.retryDelay :: r.2.2)))
            else some (false, fs1, Event.useZone ad :: cevs)
          else some (false, fs1, Event.useZone ad :: cevs)
      | .timedOut =>
        (runLoop cfg env fs1 (attempt + 1) fuel).map
          (fun r => (r.1, r.2.1, Event.useZone ad :: r.2.2))
      | .raised =>
        some (false, fs1,
          Event.useZone ad ::
            (if !cfg.planOnly && !cfg.noCleanup then [Event.destroyEv] else []))

/-- Embedding of `run_terraform_apply`: missing configuration directory returns `False`
immediately (lines 92-94), else the retry loop runs from attempt 1. -/
def run_terraform_apply (cfg : Config) (configDirPresent : Bool)
    (env : Nat → RunResult) (fs : FS) : Option (Bool × FS × List Event) :=
  if configDirPresent = false then some (false, fs, [])
  else runLoop cfg env fs 1 cfg.maxAttempts

/-- Process exit code of `main()` as a function of the parsed verbosity
flags, the availability-domain inputs, and the driver's reported result.
`parser.error` (line 371, the `--quiet`/`--verbose` conflict) terminates
the process with status 2 per the Python standard library `argparse`;
`sys.exit(1)` paths are lines 400 and 425; success/failure mapping is
lines 439-444.  An uncaught exception (the `read_text` of a file whose
existence `check_availability_domain_in_tfvars` just reported — dead in
practice) would also exit with status 1. -/
def mainExitCode (quiet verbose : Bool) (ads : Option (List String))
    (tfvars : Option (List Char)) (driverSuccess : Bool) : Nat :=
  if quiet && verbose then 2
  else
    let adIn := check_availability_domain_in_tfvars tfvars
    if ads.isNone && !adIn then 1
    else if ads.isSome then (if driverSuccess then 0 else 1)
    else
      match tfvars with
      | some content =>
        match searchAD content with
        | some _ => if driverSuccess then 0 else 1
        | none => 1
      | none => 1

theorem selectZone_eq (zones : List String) (attempt : Nat) (h : zones ≠ []) :
    selectZone zones attempt = zones.get? ((attempt - 1) % zones.length) := by
  have hl : zones.length ≠ 0 := by simpa using fun h0 => h (List.length_eq_zero.mp h0)
  simp [selectZone, zoneIndex, hl]

theorem selectZone_isSome (zones : List String) (attempt : Nat) (h : zones ≠ []) :
    ∃ z, selectZone zones attempt = some z := by
  rw [selectZone_eq zones attempt h]
  have hpos : 0 < zones.length := List.length_pos.mpr h
  have hlt : (attempt - 1) % zones.length < zones.length := Nat.mod_lt _ hpos
  exact ⟨_, List.get?_eq_get hlt⟩

/-- C10: under the precondition that the zone list is non-empty, zone
selection is total: for every attempt number the modulo index is defined
and in bounds, and indexing yields a zone; for the empty zone list the
selection is undefined (Python `%` raises `ZeroDivisionError`). -/
theorem c10_zone_selection_total (zones : List String) (attempt : Nat) :
    (zones ≠ [] →
      ∃ i z, zoneIndex attempt zones.length = some i ∧ i < zones.length ∧
        selectZone zones attempt = some z) ∧
    selectZone ([] : List String) attempt = none := by
  constructor
  · intro h
    have hl : zones.length ≠ 0 := fun h0 => h (List.length_eq_zero.mp h0)
    have hpos : 0 < zones.length := Nat.pos_of_ne_zero hl
    obtain ⟨z, hz⟩ := selectZone_isSome zones attempt h
    exact ⟨(attempt - 1) % zones.length, z, by simp [zoneIndex, hl],
      Nat.mod_lt _ hpos, hz⟩
  · simp [selectZone, zoneIndex]

/-- Witness for C10 at a concrete input. -/
theorem c10_witness :
    ∃ i z, zoneIndex 4 (["a", "b"] : List String).length = some i ∧
      i < (["a", "b"] : List String).length ∧
      selectZone ["a", "b"] 4 = some z :=
  (c10_zone_selection_total ["a", "b"] 4).1 (by decide)

/-- C9: `cleanup_resources` never propagates an exception — every outcome
of the destroy invocation, including `TimeoutExpired` and any unexpected
error, yields a normal return (`.ok`) — and the destroy invocation's time
bound is the fixed 1800 seconds, while the caller-configured timeout is
what the apply/plan invocation receives. -/
theorem c9_cleanup_total_fixed_timeout (autoApprove : Bool)
    (outcome : RunResult) (cfg : Config) :
    (∃ evs, cleanup_resources autoApprove outcome = Except.ok evs) ∧
    (destroySubprocCall autoApprove).timeoutS = 1800 ∧
    (applySubprocCall cfg).timeoutS = cfg.timeoutS := by
  refine ⟨?_, rfl, rfl⟩
  cases outcome with
  | completed rc out err =>
    by_cases h : rc = 0 <;> simp [cleanup_resources, subprocessRun, h]
  | timedOut => exact ⟨_, rfl⟩
  | raised => exact ⟨_, rfl⟩

theorem runLoop_head (cfg : Config) (env : Nat → RunResult) (fs : FS)
    (attempt fuel : Nat) (ad : String)
    (had : selectZone cfg.zones attempt = some ad)
    (r : Bool × FS × List Event)
    (hr : runLoop cfg env fs attempt (fuel + 1) = some r) :
    ∃ rest, r.2.2 = Event.useZone ad :: rest := by
  simp only [runLoop, had] at hr
  cases henv : env attempt with
  | completed rc out serr =>
    simp only [henv] at hr
    split at hr
    · cases hr; exact ⟨_, rfl⟩
    · split at hr
      · cases hr; exact ⟨_, rfl⟩
      · split at hr
        · split at hr
          · rcases Option.map_eq_some'.mp hr with ⟨r', _, rfl⟩
            exact ⟨_, rfl⟩
          · cases hr; exact ⟨_, rfl⟩
        · cases hr; exact ⟨_, rfl⟩
  | timedOut =>
    simp only [henv] at hr
    rcases Option.map_eq_some'.mp hr with ⟨r', _, rfl⟩
    exact ⟨_, rfl⟩
  | raised =>
    simp only [henv] at hr
    cases hr; exact ⟨_, rfl⟩

/-- C2: for a non-empty zone list, attempt `N` of the retry loop uses zone
`zones[(N-1) mod L]` (its iteration trace starts with that zone), and with
`L = 3` attempts 1..7 select indices 0,1,2,0,1,2,0. -/
theorem c2_zone_rotation (cfg : Config) (env : Nat → RunResult) (fs : FS)
    (attempt fuel : Nat) (hz : cfg.zones ≠ []) :
    (∃ ad, cfg.zones.get? ((attempt - 1) % cfg.zones.length) = some ad ∧
      ∀ r, runLoop cfg env fs attempt (fuel + 1) = some r →
        ∃ rest, r.2.2 = Event.useZone ad :: rest) ∧
    [1, 2, 3, 4, 5, 6, 7].map (selectZone ["z0", "z1", "z2"]) =
      [some "z0", some "z1", some "z2", some "z0", some "z1", some "z2",
        some "z0"] := by
  constructor
  · obtain ⟨ad, had⟩ := selectZone_isSome cfg.zones attempt hz
    refine ⟨ad, ?_, fun r hr => runLoop_head cfg env fs attempt fuel ad had r hr⟩
    rw [← selectZone_eq cfg.zones attempt hz]
    exact had
  · decide

/-- Witness for C2 at a concrete input. -/
theorem c2_witness :
    [1, 2, 3, 4, 5, 6, 7].map (selectZone ["z0", "z1", "z2"]) =
      [some "z0", some "z1", some "z2", some "z0", some "z1", some "z2",
        some "z0"] :=
  (c2_zone_rotation
    { maxAttempts := 1, retryDelay := 1, autoApprove := true,
      zones := ["z0", "z1", "z2"], timeoutS := 1, noCleanup := false,
      planOnly := false }
    (fun _ => RunResult.raised) ⟨none, none⟩ 1 0 (by decide)).2

/-- C6: in plan-only mode a non-zero exit is terminal: the iteration
returns `False` at once — its trace holds no destroy call and no sleep,
and the loop does not recurse. -/
theorem c6_plan_only_terminal (cfg : Config) (env : Nat → RunResult)
    (fs : FS) (attempt fuel : Nat) (ad : String) (rc : Int)
    (out serr : List Char)
    (had : selectZone cfg.zones attempt = some ad)
    (hplan : cfg.planOnly = true)
    (he : env attempt = .completed rc out serr) (hrc : rc ≠ 0) :
    runLoop cfg env fs attempt (fuel + 1) =
      some (false, (update_main_tf ad fs).1, [Event.useZone ad]) := by
  simp only [runLoop, had, he]
  simp [hrc, hplan]

/-- Witness for C6 at a concrete input. -/
theorem c6_witness :
    runLoop
      { maxAttempts := 5, retryDelay := 1, autoApprove := true,
        zones := ["z"], timeoutS := 1, noCleanup := false, planOnly := true }
      (fun _ => RunResult.completed 1 [] ("Out of host capacity".data))
      ⟨none, none⟩ 1 5 =
      some (false, (update_main_tf "z" (⟨none, none⟩ : FS)).1,
        [Event.useZone "z"]) :=
  c6_plan_only_terminal _ _ _ 1 4 "z" 1 [] ("Out of host capacity".data)
    (by decide) rfl rfl (by decide)

/-- C8: a `TimeoutExpired` of the apply/plan invocation advances straight
to the next attempt: the loop recurses at `attempt + 1` and the iteration
contributes no sleep and no destroy call to the trace. -/
theorem c8_timeout_immediate_retry (cfg : Config) (env : Nat → RunResult)
    (fs : FS) (attempt fuel : Nat) (ad : String)
    (had : selectZone cfg.zones attempt = some ad)
    (ht : env attempt = .timedOut) :
    runLoop cfg env fs attempt (fuel + 1) =
      (runLoop cfg env (update_main_tf ad fs).1 (attempt + 1) fuel).map
        (fun r => (r.1, r.2.1, Event.useZone ad :: r.2.2)) := by
  simp only [runLoop, had, ht]

/-- Witness for C8 at a concrete input. -/
theorem c8_witness :
    runLoop
      { maxAttempts := 2, retryDelay := 3, autoApprove := true,
        zones := ["z"], timeoutS := 1, noCleanup := false, planOnly := false }
      (fun _ => RunResult.timedOut) ⟨none, none⟩ 1 2 =
      (runLoop
        { maxAttempts := 2, retryDelay := 3, autoApprove := true,
          zones := ["z"], timeoutS := 1, noCleanup := false,
          planOnly := false }
        (fun _ => RunResult.timedOut)
        (update_main_tf "z" (⟨none, none⟩ : FS)).1 2 1).map
        (fun r => (r.1, r.2.1, Event.useZone "z" :: r.2.2)) :=
  c8_timeout_immediate_retry _ _ _ 1 1 "z" (by decide) rfl

/-- C1: after a non-zero exit in non-plan mode, the loop proceeds to a
further attempt iff the stderr text is recoverable (case-insensitive
"out of host capacity" or "internalerror") and `attempt < max_attempts`;
in the retrying case the iteration trace carries the fixed-delay sleep
before the recursion at `attempt + 1`; in both other cases the loop
returns `False` at once with no sleep. -/
theorem c1_retry_classification (cfg : Config) (env : Nat → RunResult)
    (fs : FS) (attempt fuel : Nat) (ad : String) (rc : Int)
    (out serr : List Char)
    (had : selectZone cfg.zones attempt = some ad)
    (hplan : cfg.planOnly = false)
    (he : env attempt = .completed rc out serr) (hrc : rc ≠ 0) :
    (isRecoverable serr = true → attempt < cfg.maxAttempts →
      runLoop cfg env fs attempt (fuel + 1) =
        (runLoop cfg env (update_main_tf ad fs).1 (attempt + 1) fuel).map
          (fun r => (r.1, r.2.1, Event.useZone ad ::
            ((if !cfg.noCleanup then [Event.destroyEv] else [])
              ++ Event.sleepEv cfg.retryDelay :: r.2.2)))) ∧
    (isRecoverable serr = true → ¬attempt < cfg.maxAttempts →
      runLoop cfg env fs attempt (fuel + 1) =
        some (false, (update_main_tf ad fs).1, Event.useZone ad ::
          (if !cfg.noCleanup then [Event.destroyEv] else []))) ∧
    (isRecoverable serr = false →
      runLoop cfg env fs attempt (fuel + 1) =
        some (false, (update_main_tf ad fs).1, Event.useZone ad ::
          (if !cfg.noCleanup then [Event.destroyEv] else []))) := by
  refine ⟨fun hrec hlt => ?_, fun hrec hlt => ?_, fun hrec => ?_⟩
  · simp only [runLoop, had, he]
    simp [hrc, hplan, hrec, hlt]
  · simp only [runLoop, had, he]
    simp [hrc, hplan, hrec, hlt]
  · simp only [runLoop, had, he]
    simp [hrc, hplan, hrec]

/-- Witness for C1 at a concrete input (recoverable text, attempts
remaining: the loop retries with the sleep in the trace). -/
theorem c1_witness :
    runLoop
      { maxAttempts := 2, retryDelay := 7, autoApprove := true,
        zones := ["z"], timeoutS := 9, noCleanup := true, planOnly := false }
      (fun _ => RunResult.completed 1 [] ("Out of host capacity".data))
      ⟨none, none⟩ 1 2 =
      (runLoop
        { maxAttempts := 2, retryDelay := 7, autoApprove := true,
          zones := ["z"], timeoutS := 9, noCleanup := true,
          planOnly := false }
        (fun _ => RunResult.completed 1 [] ("Out of host capacity".data))
        (update_main_tf "z" (⟨none, none⟩ : FS)).1 2 1).map
        (fun r => (r.1, r.2.1, Event.useZone "z" ::
          ((if
              !({ maxAttempts := 2, retryDelay := 7, autoApprove := true,
                  zones := ["z"], timeoutS := 9, noCleanup := true,
                  planOnly := false } : Config).noCleanup
            then [Event.destroyEv] else [])
            ++ Event.sleepEv 7 :: r.2.2))) :=
  (c1_retry_classification _ _ _ 1 1 "z" 1 [] ("Out of host capacity".data)
    (by decide) rfl rfl (by decide)).1 (by decide) (by decide)

theorem runLoop_no_destroy_of_noCleanup (cfg : Config)
    (hnc : cfg.noCleanup = true) (env : Nat → RunResult) :
    ∀ (fuel : Nat) (fs : FS) (attempt : Nat) (r : Bool × FS × List Event),
      runLoop cfg env fs attempt fuel = some r → Event.destroyEv ∉ r.2.2 := by
  intro fuel
  induction fuel with
  | zero =>
    intro fs attempt r h
    simp only [runLoop] at h
    cases h
    simp [hnc]
  | succ fuel ih =>
    intro fs attempt r h
    simp only [runLoop] at h
    split at h
    · cases h
    · next ad had =>
      split at h
      · next rc out serr henv =>
        split at h
        · cases h; simp
        · split at h
          · cases h; simp
          · split at h
            · split at h
              · rcases Option.map_eq_some'.mp h with ⟨r', hr', rfl⟩
                have hrec := ih _ _ _ hr'
                simp [hnc]
                exact hrec
              · cases h; simp [hnc]
            · cases h; simp [hnc]
      · next henv =>
        rcases Option.map_eq_some'.mp h with ⟨r', hr', rfl⟩
        have hrec := ih _ _ _ hr'
        simp
        exact hrec
      · next henv =>
        cases h
        simp [hnc]

/-- C7: with `no_cleanup` set, `terraform destroy` is never invoked on any
execution path of the driver: whatever the per-attempt outcomes, the event
trace of `run_terraform_apply` contains no destroy call. -/
theorem c7_no_cleanup_no_destroy (cfg : Config) (configDirPresent : Bool)
    (env : Nat → RunResult) (fs : FS) (r : Bool × FS × List Event)
    (hnc : cfg.noCleanup = true)
    (h : run_terraform_apply cfg configDirPresent env fs = some r) :
    Event.destroyEv ∉ r.2.2 := by
  unfold run_terraform_apply at h
  split at h
  · cases h; simp
  · exact runLoop_no_destroy_of_noCleanup cfg hnc env _ _ _ _ h

/-- Witness for C7 at a concrete input (non-recoverable failure path). -/
theorem c7_witness :
    Event.destroyEv ∉
      ((false, (⟨none, none⟩ : FS), [Event.useZone "z"]) :
        Bool × FS × List Event).2.2 :=
  c7_no_cleanup_no_destroy
    { maxAttempts := 1, retryDelay := 1, autoApprove := true,
      zones := ["z"], timeoutS := 1, noCleanup := true, planOnly := false }
    true (fun _ => RunResult.completed 1 [] ("quota exceeded".data))
    ⟨none, none⟩ (false, ⟨none, none⟩, [Event.useZone "z"]) rfl (by decide)

/-- Counterexample for C3: with both `--quiet` and `--verbose` supplied
the process exits with status 2 (the argparse parser.error call), not 1 as
the claim states. -/
theorem c3_counterexample :
    mainExitCode true true (some ["z"]) none false = 2 ∧
    mainExitCode true true (some ["z"]) none false ≠ 1 := by decide

theorem searchAD_of_check (tfvars : Option (List Char))
    (h : check_availability_domain_in_tfvars tfvars = true) :
    ∃ content v, tfvars = some content ∧ searchAD content = some v := by
  cases tfvars with
  | none => simp [check_availability_domain_in_tfvars] at h
  | some content =>
    cases hs : searchAD content with
    | none => simp [check_availability_domain_in_tfvars, hs] at h
    | some v => exact ⟨content, v, rfl, hs⟩

/-- C3 amended: the exit code is 0 when the driver reports success and 1
when it reports failure (given resolvable availability-domain inputs),
but the invalid `--quiet`/`--verbose` combination exits with status 2. -/
theorem c3_amended (quiet verbose driverSuccess : Bool)
    (ads : Option (List String)) (tfvars : Option (List Char)) :
    ((quiet && verbose) = true →
      mainExitCode quiet verbose ads tfvars driverSuccess = 2) ∧
    ((quiet && verbose) = false →
      (ads.isSome || check_availability_domain_in_tfvars tfvars) = true →
      mainExitCode quiet verbose ads tfvars driverSuccess =
        if driverSuccess then 0 else 1) := by
  constructor
  · intro h
    simp [mainExitCode, h]
  · intro h hok
    cases hads : ads with
    | some l => simp [mainExitCode, h, hads]
    | none =>
      rw [hads] at hok
      simp at hok
      obtain ⟨content, v, htf, hs⟩ := searchAD_of_check _ hok
      subst htf
      simp [mainExitCode, h, hok, hs]

/-- Witness for the amended C3 at concrete inputs. -/
theorem c3_witness :
    mainExitCode true true (some ["z"]) none true = 2 ∧
    mainExitCode false false (some ["z"]) none true = 0 := by
  constructor
  · exact (c3_amended true true true (some ["z"]) none).1 rfl
  · have := (c3_amended false false true (some ["z"]) none).2 rfl (by decide)
    simpa using this

/-- The line `availability_domain = "AD-1"`. -/
def adLine1 : List Char := adLineOf ("AD-1".data)

/-- The line `availability_domain = "AD-2"`. -/
def adLine2 : List Char := adLineOf ("AD-2".data)

theorem adLine2_ne_adLine1 : adLine2 ≠ adLine1 := by decide

theorem reSubAD_adLine1 : reSubAD "AD-2" adLine1 = adLine2 := by
  have h := reSubAD_line "AD-2" ("AD-1".data) [] [] (by decide)
    (fun i hi => by simp at hi) (fun i hi => by simp at hi)
  simpa [adLine1, adLine2] using h

theorem reSubAD_adLine2_id : reSubAD "AD-2" adLine2 = adLine2 := by
  have h := reSubAD_line "AD-2" ("AD-2".data) [] [] (by decide)
    (fun i hi => by simp at hi) (fun i hi => by simp at hi)
  simpa [adLine2] using h

/-- Counterexample for C4: the primary file contains the zone-key line
(already holding the target value), yet the editor modifies `main.tf` —
the fallback is driven by "substitution changed nothing", not by "primary
lacks the key". -/
theorem c4_counterexample :
    (searchAD adLine2).isSome = true ∧
    (update_main_tf "AD-2" ⟨some adLine2, some adLine1⟩).1.mainTf ≠
      (⟨some adLine2, some adLine1⟩ : FS).mainTf := by
  constructor
  · decide
  · simp [update_main_tf, updateMainTfFallback, reSubAD_adLine2_id,
      reSubAD_adLine1, adLine2_ne_adLine1]

/-- C4 amended: the editor rewrites `terraform.tfvars` exactly when the
substitution changes its content; it edits `main.tf` exactly when the
substitution leaves the primary file unchanged (file absent, key absent,
or key already holding the target value) and changes `main.tf`; and when
it changes neither file it logs a warning. -/
theorem c4_amended (ad : String) (fs : FS) :
    ((update_main_tf ad fs).1.tfvars ≠ fs.tfvars ↔
      ∃ c, fs.tfvars = some c ∧ reSubAD ad c ≠ c) ∧
    ((update_main_tf ad fs).1.mainTf ≠ fs.mainTf ↔
      ((∀ c, fs.tfvars = some c → reSubAD ad c = c) ∧
        ∃ m, fs.mainTf = some m ∧ reSubAD ad m ≠ m)) ∧
    ((update_main_tf ad fs).1 = fs →
      ∃ w, w ∈ (update_main_tf ad fs).2 ∧
        (w = UEvent.warnTfvarsNoMatch ∨ w = UEvent.warnMainTfNoMatch ∨
          w = UEvent.warnMainTfMissing)) := by
  obtain ⟨tf, mt⟩ := fs
  cases tf with
  | some c =>
    by_cases h1 : reSubAD ad c = c
    · cases mt with
      | none =>
        simp [update_main_tf, updateMainTfFallback, h1]
      | some m =>
        by_cases h2 : reSubAD ad m = m <;>
          simp [update_main_tf, updateMainTfFallback, h1, h2]
    · simp [update_main_tf, updateMainTfFallback, h1]
  | none =>
    cases mt with
    | none => simp [update_main_tf, updateMainTfFallback]
    | some m =>
      by_cases h2 : reSubAD ad m = m <;>
        simp [update_main_tf, updateMainTfFallback, h2]

/-- Witness for the amended C4 at a concrete input: a primary file holding
`availability_domain = "AD-1"` is rewritten. -/
theorem c4_witness :
    (update_main_tf "AD-2" ⟨some adLine1, none⟩).1.tfvars ≠
      (⟨some adLine1, none⟩ : FS).tfvars :=
  (c4_amended "AD-2" ⟨some adLine1, none⟩).1.mpr
    ⟨adLine1, rfl, by rw [reSubAD_adLine1]; exact adLine2_ne_adLine1⟩

/-- C5: editing a variables file whose content is the line
`availability_domain = "AD-1"` surrounded by a prefix and suffix in which
the key pattern does not occur, with target zone `AD-2`, rewrites exactly
that line to `availability_domain = "AD-2"`, leaves every other part of
the content unchanged, writes the primary file, and does not touch
`main.tf`. -/
theorem c5_edit_replaces_line_only (p s : List Char) (mt : Option (List Char))
    (hp : ∀ i, i < p.length → matchAD ((p ++ adLine1 ++ s).drop i) = none)
    (hs : ∀ i, i < s.length → matchAD (s.drop i) = none) :
    update_main_tf "AD-2" ⟨some (p ++ adLine1 ++ s), mt⟩ =
      (⟨some (p ++ adLine2 ++ s), mt⟩, [UEvent.wroteTfvars]) := by
  have hsub : reSubAD "AD-2" (p ++ adLine1 ++ s) = p ++ adLine2 ++ s := by
    have h := reSubAD_line "AD-2" ("AD-1".data) p s (by decide)
      (fun i hi => by
        have := hp i hi
        simpa [adLine1] using this) hs
    simpa [adLine1, adLine2] using h
  have hne : p ++ adLine2 ++ s ≠ p ++ adLine1 ++ s := by
    intro h
    rw [List.append_assoc, List.append_assoc] at h
    have h2 := List.append_cancel_left h
    have h3 : adLine2 = adLine1 :=
      (List.append_inj_left h2 (by decide))
    exact adLine2_ne_adLine1 h3
  simp only [List.append_assoc] at hsub hne
  simp [update_main_tf, hsub, hne]

/-- Witness for C5 at a concrete input: a realistic three-line file. -/
theorem c5_witness :
    update_main_tf "AD-2"
      ⟨some (("region = \"us-1\"\n".data) ++ adLine1 ++
        ("\nshape = \"VM.Std\"\n".data)), none⟩ =
      (⟨some (("region = \"us-1\"\n".data) ++ adLine2 ++
        ("\nshape = \"VM.Std\"\n".data)), none⟩, [UEvent.wroteTfvars]) :=
  c5_edit_replaces_line_only ("region = \"us-1\"\n".data)
    ("\nshape = \"VM.Std\"\n".data) none (by decide) (by decide)
